import Mathlib

/-!
Shallow embedding of the `s3out` output plugin (an S3 sink for the beats
event pipeline) and proofs about its behaviour.

The embedding follows the Go sources:
- `s3.go` (current revision): `PublishEvent`, `getConsumerOptions`, `getMessage`
- `consumer.go`: `append`, `upload`, `compressFile`, `handleLeftoverChunks`
- `s3uploader.go`: `newS3Uploader`, `recieveAndUpload`, `tryUpload`, `s3Put`
- `config.go`: the `config` struct and its defaults

Durations are modelled in nanoseconds (Go `time.Duration` units), config
integers as naturals (the validated range), file systems as finite lists of
file records, and the event map as a recursive value tree.
-/

namespace S3Out

/-- A value in the nested event mapping (Go `common.MapStr` holds
`interface\x7b\x7d` values: strings, numbers, nested maps, ...). -/
inductive Value where
  | str (s : String)
  | num (n : Int)
  | map (fields : List (String × Value))

/-- First binding of a key in a map's field list. -/
def lookupField : List (String × Value) → String → Option Value
  | [], _ => none
  | (k, v) :: rest, key => if k = key then some v else lookupField rest key

/-- Modelled from the spec: `common.MapStr.GetValue` (external beats library)
splits its key on dots and traverses nested maps, failing when a path
component is missing or an intermediate value is not a map.  The dotted key
is given here already split into components. -/
def getValue : Value → List String → Option Value
  | v, [] => some v
  | v, k :: rest =>
    match v with
    | .map fs =>
      match lookupField fs k with
      | some v' => getValue v' rest
      | none => none
    | _ => none

/-- Outcome of one of the event-extraction functions at the `PublishEvent`
boundary: a value, a returned error (missing field), or a Go runtime panic
from an unchecked type assertion such as `messageInterface.(string)`. -/
inductive ExtractResult (α : Type) where
  | ok (a : α)
  | errMissing
  | panicked
deriving DecidableEq, Repr

/-- Map over the `ok` payload of an extraction result. -/
def ExtractResult.map (f : α → β) : ExtractResult α → ExtractResult β
  | .ok a => .ok (f a)
  | .errMissing => .errMissing
  | .panicked => .panicked

/-- `consumerOptions` from `consumer.go`: the ucfg-tagged struct unpacked
from `fields.s3`. -/
structure ConsumerOptions where
  appType : String
  timestampRegex : String
  timestampFormat : String
deriving DecidableEq, Repr

/-- The string at a key of a field list, or the zero value `""`. -/
def strAt (m : List (String × Value)) (key : String) : String :=
  match lookupField m key with
  | some (.str s) => s
  | _ => ""

/-- Modelled from the spec: `ucfg.NewFrom` + `Unpack` (external library) fill
the tagged fields of `consumerOptions` from the `fields.s3` sub-map, leaving
zero values (`""`) for missing keys; unpack errors are ignored by the caller. -/
def unpackOptions (m : List (String × Value)) : ConsumerOptions :=
  { appType := strAt m "appType"
    timestampRegex := strAt m "timestampRegex"
    timestampFormat := strAt m "timestampFormat" }

/-- Go `filepath.Base`: empty path gives ".", trailing slashes are stripped,
an all-slash path gives "/", otherwise the last path element. -/
def goPathBase (s : String) : String :=
  if s = "" then "."
  else
    let cs := s.toList
    let trimmed := (cs.reverse.dropWhile (fun c => c = '/')).reverse
    if trimmed = [] then "/"
    else String.mk ((trimmed.reverse.takeWhile (fun c => c ≠ '/')).reverse)

/-- The tail of `getConsumerOptions` (`s3.go`, current revision): when the
unpacked `appType` is empty, fall back to `basename(event.source)`; a missing
`source` is a returned error, a non-string `source` is an unchecked
`.(string)` assertion, i.e. a panic. -/
def optionsOrSource (opts : ConsumerOptions) (e : Value) : ExtractResult ConsumerOptions :=
  if opts.appType = "" then
    match getValue e ["source"] with
    | none => .errMissing
    | some (.str s) => .ok { opts with appType := goPathBase s }
    | some _ => .panicked
  else .ok opts

/-- `getConsumerOptions` from `s3.go` (current revision): read `fields.s3`
(a present non-map value hits the unchecked `.(common.MapStr)` assertion),
unpack it into `consumerOptions`, and fall back to the basename of `source`
when no (non-empty) `appType` was obtained.  `fields.appType` is never read. -/
def getConsumerOptions (e : Value) : ExtractResult ConsumerOptions :=
  match getValue e ["fields", "s3"] with
  | some (.map m) => optionsOrSource (unpackOptions m) e
  | some _ => .panicked
  | none => optionsOrSource ⟨"", "", ""⟩ e

/-- `getMessage` from `s3.go`: a missing `message` is a returned error; a
present non-string `message` hits the unchecked `.(string)` assertion. -/
def getMessage (e : Value) : ExtractResult String :=
  match getValue e ["message"] with
  | none => .errMissing
  | some (.str s) => .ok s
  | some _ => .panicked

/-- Written from the amended claim's words (refinement reference for the
routing key): `appType` is `fields.s3.appType` when that is a non-empty
string, else the basename of `source`; failure only when both are absent;
a non-string `source` (or non-map `fields.s3`) panics. -/
def specSourceFallback (e : Value) : ExtractResult String :=
  match getValue e ["source"] with
  | none => .errMissing
  | some (.str s) => .ok (goPathBase s)
  | some _ => .panicked

/-- Written from the amended claim's words, together with
`specSourceFallback`: the two-step routing chain. -/
def specAppTypeChain (e : Value) : ExtractResult String :=
  match getValue e ["fields", "s3"] with
  | some (.map m) =>
    match lookupField m "appType" with
    | some (.str s) => if s = "" then specSourceFallback e else .ok s
    | _ => specSourceFallback e
  | some _ => .panicked
  | none => specSourceFallback e

/-! ### Configuration and uploader arithmetic (`config.go`, `s3uploader.go`) -/

/-- The `config` struct from `config.go` (current revision, the one carrying
`retry_limit_seconds`); the integer fields are modelled over the validated
(non-negative) range. -/
structure Config where
  accessKeyId : String := ""
  secretAccessKey : String := ""
  region : String := "us-east-1"
  bucket : String := ""
  prefixStr : String := ""
  temporaryDirectory : String := ""
  secondsPerChunk : Nat := 300
  retryLimitSeconds : Nat := 60 * 30
deriving Repr

/-- Go `time.Second` in `time.Duration` units (nanoseconds). -/
def timeSecond : Nat := 1000000000

/-- Go `time.Minute` in `time.Duration` units (nanoseconds). -/
def timeMinute : Nat := 60 * timeSecond

/-- The `retryInterval` constant of `s3uploader.go`: `time.Second * 30`. -/
def retryIntervalNs : Nat := 30 * timeSecond

/-- `newS3Uploader`: `retryLimit := time.Minute * time.Duration(c.RetryLimitSeconds)`. -/
def retryLimitNs (c : Config) : Nat := timeMinute * c.retryLimitSeconds

/-- `newS3Uploader`: `uploadInterval := time.Second * time.Duration(c.SecondsPerChunk)`. -/
def uploadIntervalNs (c : Config) : Nat := timeSecond * c.secondsPerChunk

/-- `newS3Uploader`: `channelSize := int64(retryLimit / uploadInterval)` —
Go `time.Duration` division truncates. -/
def channelSize (c : Config) : Nat := retryLimitNs c / uploadIntervalNs c

/-- Rounding-up division, used to state the spec's `ceil` formula. -/
def ceilDiv (a b : Nat) : Nat := (a + b - 1) / b

/-! ### The upload retry loop (`s3uploader.go`) -/

/-- How `tryUpload` exited for one queued file. -/
inductive UploadOutcome where
  | uploaded
  | dropped
  | abandoned
deriving DecidableEq, Repr

/-- One iteration of the `tryUpload` retry loop, as observed from outside:
the result of the `s3Put` call, the wall-clock reading `time.Now()` taken
after a failure, and whether `shutdownChan` fires during the ensuing
`retryInterval` wait. -/
structure Attempt where
  putOk : Bool
  now : Nat
  shutdownFired : Bool
deriving DecidableEq, Repr

/-- The body of `tryUpload`'s loop over a finite trace of attempts, with
`tryUntil` fixed on entry.  Result: the outcome together with whether the
file was removed from disk (`removeFile`); `none` when the trace ends with
the loop still running. -/
def tryUploadLoop (tryUntil : Nat) : List Attempt → Option (UploadOutcome × Bool)
  | [] => none
  | a :: rest =>
    if a.putOk then some (.uploaded, true)
    else if tryUntil < a.now + retryIntervalNs then some (.dropped, true)
    else if a.shutdownFired then some (.abandoned, false)
    else tryUploadLoop tryUntil rest

/-- `tryUpload`: `tryUntil := time.Now().Add(s.retryLimit)` then the retry
loop; `rl` is the uploader's `retryLimit`, `t0` the entry time. -/
def tryUpload (rl t0 : Nat) (as : List Attempt) : Option (UploadOutcome × Bool) :=
  tryUploadLoop (t0 + rl) as

/-- `recieveAndUpload` over a finite queue of (file name, attempt trace):
returns the names of the files removed from disk.  A `tryUpload` error
(abandonment) breaks the loop; so does an exhausted trace (an upload still
in flight). -/
def recieveAndUpload (rl t0 : Nat) : List (String × List Attempt) → List String
  | [] => []
  | (name, as) :: rest =>
    match tryUpload rl t0 as with
    | some (.uploaded, _) => name :: recieveAndUpload rl t0 rest
    | some (.dropped, _) => name :: recieveAndUpload rl t0 rest
    | some (.abandoned, _) => []
    | none => []

/-! ### Files on disk, the compressor, and the leftover sweep (`consumer.go`) -/

/-- A file on disk (or handed to the uploader queue): path, byte size, and
modification time. -/
structure DiskFile where
  path : String
  size : Nat
  mtime : Int
deriving DecidableEq, Repr

/-- Whether a path exists in a file system (`os.Stat` succeeding). -/
def existsPath (fs : List DiskFile) (p : String) : Bool :=
  fs.any (fun f => f.path = p)

/-- `strings.Replace(filePath, ".gz", "", -1)`: drop every occurrence of
".gz" (left to right, non-overlapping). -/
def dropDotGz : List Char → List Char
  | [] => []
  | '.' :: 'g' :: 'z' :: rest => dropDotGz rest
  | c :: rest => c :: dropDotGz rest

/-- The sibling path `tryUpload` pairs with a compressed chunk:
`strings.Replace(p, ".gz", "", -1)`. -/
def gzSibling (p : String) : String := String.mk (dropDotGz p.toList)

/-- `filepath.Glob` for the patterns `<base>_*.log` and `<base>_*.log.gz`:
the path starts with `base ++ "_"`, ends with the suffix, and the part
matched by `*` contains no path separator. -/
def globMatch (base suf p : String) : Bool :=
  let b := (base ++ "_").toList
  let s := suf.toList
  let pc := p.toList
  b.isPrefixOf pc && s.isSuffixOf pc && decide (b.length + s.length ≤ pc.length) &&
    !(((pc.drop b.length).take (pc.length - b.length - s.length)).contains '/')

/-- Failure injection for `compressFile`: which of its fallible steps
(`Seek`, `os.Create`, `io.Copy`, `gzWriter.Close`) fails first. -/
structure CompressErrs where
  seekErr : Bool := false
  createErr : Bool := false
  copyErr : Bool := false
  closeErr : Bool := false
deriving DecidableEq, Repr

/-- Modelled gzip encoding of the external `compress/gzip` library: the
encoder always emits its 18 bytes of stream framing (header and trailer)
around the compressed payload, never an empty output. -/
def gzipOutputSize (srcSize : Nat) : Nat := 18 + srcSize

/-- The path `compressFile` creates: `os.Create(fInfo.Name() + ".gz")`,
where `fInfo.Name()` (Go `os.FileInfo.Name`) is the **base name** of the
source file — so the `.gz` is created relative to the process working
directory, not next to the source. -/
def compressTargetPath (srcPath : String) : String := goPathBase srcPath ++ ".gz"

/-- Effect of one `compressFile` call. -/
structure CompressResult where
  ok : Bool
  gzFile : Option DiskFile
  partialGzPath : Option String
  srcRemoved : Bool
deriving DecidableEq, Repr

/-- `compressFile` from `consumer.go`: seek the source to 0, create the
`.gz` (at `compressTargetPath`), copy the source through a gzip encoder,
close the encoder, copy the source mtime onto the `.gz`, remove the source.
Only a failing encoder close runs `removeFile(gzFile)`; a copy failure
returns with the partial `.gz` still on disk; earlier failures happen
before any `.gz` exists.  The source is removed only on full success. -/
def compressFile (src : DiskFile) (e : CompressErrs) : CompressResult :=
  if e.seekErr then { ok := false, gzFile := none, partialGzPath := none, srcRemoved := false }
  else if e.createErr then { ok := false, gzFile := none, partialGzPath := none, srcRemoved := false }
  else if e.copyErr then
    { ok := false, gzFile := none, partialGzPath := some (compressTargetPath src.path),
      srcRemoved := false }
  else if e.closeErr then { ok := false, gzFile := none, partialGzPath := none, srcRemoved := false }
  else
    { ok := true,
      gzFile := some ⟨compressTargetPath src.path, gzipOutputSize src.size, src.mtime⟩,
      partialGzPath := none, srcRemoved := true }

/-- The `.log.gz` phase of `handleLeftoverChunks`, folded over the globbed
compressed chunks in order: when `os.Stat` of the ".gz"-stripped sibling
succeeds the file is opened and sent to `uploader.fileChan`; when the stat
fails the `.gz` is removed.  Returns (enqueued files, removed paths). -/
def sweepGzAux (fs : List DiskFile) : List DiskFile → List DiskFile × List String
  | [] => ([], [])
  | f :: rest =>
    let acc := sweepGzAux fs rest
    if existsPath fs (gzSibling f.path) then (f :: acc.1, acc.2)
    else (acc.1, f.path :: acc.2)

/-- The `.log.gz` phase of `handleLeftoverChunks` on a file system, globbing
`<base>_*.log.gz`. -/
def sweepGz (fs : List DiskFile) (base : String) : List DiskFile × List String :=
  sweepGzAux fs (fs.filter (fun f => globMatch base ".log.gz" f.path))

/-- The `.log` phase of `handleLeftoverChunks` over the globbed chunk list
(error-free filesystem run): an empty leftover chunk is deleted; a non-empty
one is compressed via `compressFile` and the resulting `.gz` enqueued.
Returns (enqueued files, removed paths). -/
def sweepLogsAux : List DiskFile → List DiskFile × List String
  | [] => ([], [])
  | f :: rest =>
    let acc := sweepLogsAux rest
    if f.size < 1 then (acc.1, f.path :: acc.2)
    else
      match (compressFile f {}).gzFile with
      | some gz => (gz :: acc.1, acc.2)
      | none => acc

/-- `handleLeftoverChunks`: the `.log.gz` sweep followed by the `.log`
sweep; result: every file sent to `uploader.fileChan`, in order. -/
def handleLeftoverChunks (fs : List DiskFile) (base : String) : List DiskFile :=
  (sweepGz fs base).1 ++ (sweepLogsAux (fs.filter (fun f => globMatch base ".log" f.path))).1

/-! ### Rotation (`consumer.upload`) and the append step (`consumer.append`) -/

/-- Effect of one `consumer.upload` call (rotation): the file handed to the
uploader queue, if any, and whether the current chunk was removed. -/
structure RotateResult where
  enqueued : Option DiskFile
  currentRemoved : Bool
deriving DecidableEq, Repr

/-- `consumer.upload(shuttingDown)` from `consumer.go`: stat the current
chunk (failure: return); if its size is < 1 it is not uploaded (and removed
only when shutting down); sync (failure: return); compress; on compression
success hand the `.gz` to `uploader.fileChan`. -/
def uploadStep (cur : DiskFile) (shuttingDown statErr syncErr : Bool) (ce : CompressErrs) :
    RotateResult :=
  if statErr then { enqueued := none, currentRemoved := false }
  else if cur.size < 1 then { enqueued := none, currentRemoved := shuttingDown }
  else if syncErr then { enqueued := none, currentRemoved := false }
  else
    let r := compressFile cur ce
    if r.ok then { enqueued := r.gzFile, currentRemoved := false }
    else { enqueued := none, currentRemoved := false }

/-- State read and written by `consumer.append`. -/
structure AppendState where
  chunkStartTime : Int
  chunkDuration : Int
deriving DecidableEq, Repr

/-- Observable actions of `consumer.append`, in program order. -/
inductive ConsumerAction where
  | rotate
  | writeLine (line : String)
  | setMtime (t : Int)
deriving DecidableEq, Repr

/-- `consumer.append` from `consumer.go`, with the timestamp extraction
(`getLineTimestamp`: external `regexp` match plus `time.Parse`) supplied as
an oracle — `none` covers no regex, no match, and parse failure alike.  When
a timestamp is obtained and `timestamp.Before(chunkStartTime) ||
timestamp.After(chunkStartTime.Add(chunkDuration))`, the consumer first
calls `upload(false)` (the `.rotate` action, which seals and hands off the
chunk when it is non-empty) and sets `chunkStartTime` to the timestamp;
the line is then written, and the file mtime set to the timestamp. -/
def append (st : AppendState) (line : String) (timestamp : Option Int) :
    AppendState × List ConsumerAction :=
  match timestamp with
  | none => (st, [.writeLine line])
  | some ts =>
    if ts < st.chunkStartTime ∨ st.chunkStartTime + st.chunkDuration < ts then
      ({ st with chunkStartTime := ts }, [.rotate, .writeLine line, .setMtime ts])
    else
      (st, [.writeLine line, .setMtime ts])

/-! ### Helper lemmas -/

/-- Mapping the routing key out of `optionsOrSource`: empty `appType` falls
back to the source basename, non-empty is returned as is. -/
lemma map_optionsOrSource (opts : ConsumerOptions) (e : Value) :
    ExtractResult.map ConsumerOptions.appType (optionsOrSource opts e) =
      if opts.appType = "" then specSourceFallback e else .ok opts.appType := by
  unfold optionsOrSource specSourceFallback
  by_cases h : opts.appType = ""
  · simp only [h, if_true]
    cases hv : getValue e ["source"] with
    | none => rfl
    | some v => cases v <;> rfl
  · simp only [h, if_false]
    rfl

/-- When the `tryUpload` loop exits through its shutdown branch, the file
was not removed. -/
lemma tryUploadLoop_abandoned_not_removed (tu : Nat) (as : List Attempt) (b : Bool)
    (h : tryUploadLoop tu as = some (.abandoned, b)) : b = false := by
  induction as with
  | nil => simp [tryUploadLoop] at h
  | cons a rest ih =>
    rw [tryUploadLoop] at h
    split at h
    · simp at h
    · split at h
      · simp at h
      · split at h
        · simp at h
          exact h
        · exact ih h

/-- Every file the `.log.gz` sweep enqueues comes from the globbed list. -/
lemma sweepGzAux_enqueued_mem (fs : List DiskFile) (l : List DiskFile) (f : DiskFile)
    (h : f ∈ (sweepGzAux fs l).1) : f ∈ l := by
  induction l with
  | nil => simp [sweepGzAux] at h
  | cons a rest ih =>
    rw [sweepGzAux] at h
    split at h
    · rcases List.mem_cons.mp h with h' | h'
      · exact h' ▸ List.mem_cons_self a rest
      · exact List.mem_cons_of_mem a (ih h')
    · exact List.mem_cons_of_mem a (ih h)

/-- Every file the `.log` sweep enqueues is a `compressFile` output and has
the nonzero gzip framing size. -/
lemma sweepLogsAux_enqueued_size (l : List DiskFile) (f : DiskFile)
    (h : f ∈ (sweepLogsAux l).1) : 1 ≤ f.size := by
  induction l with
  | nil => simp [sweepLogsAux] at h
  | cons a rest ih =>
    rw [sweepLogsAux] at h
    split at h
    · exact ih h
    · have hgz : (compressFile a {}).gzFile =
          some ⟨compressTargetPath a.path, gzipOutputSize a.size, a.mtime⟩ := rfl
      rw [hgz] at h
      rcases List.mem_cons.mp h with h' | h'
      · rw [h']
        simp only [gzipOutputSize]
        omega
      · exact ih h'

/-- A completed `.gz` out of `compressFile` always carries the gzip framing
size of its source. -/
lemma compressFile_gzFile_size (src : DiskFile) (e : CompressErrs) (g : DiskFile)
    (h : (compressFile src e).gzFile = some g) : g.size = gzipOutputSize src.size := by
  obtain ⟨a, b, c, d⟩ := e
  cases a <;> cases b <;> cases c <;> cases d <;> simp_all [compressFile]
  exact (congrArg DiskFile.size h).symm

/-- Every file in-process rotation enqueues has the nonzero gzip framing
size (it only compresses a chunk that passed the `size < 1` check). -/
lemma uploadStep_enqueued_size (cur : DiskFile) (sd se sy : Bool) (ce : CompressErrs)
    (g : DiskFile) (hg : (uploadStep cur sd se sy ce).enqueued = some g) : 1 ≤ g.size := by
  simp only [uploadStep] at hg
  split at hg
  · simp at hg
  · split at hg
    · simp at hg
    · split at hg
      · simp at hg
      · split at hg
        · have hsz := compressFile_gzFile_size cur ce g hg
          rw [hsz]
          unfold gzipOutputSize
          omega
        · simp at hg

/-! ### Claim theorems -/

/-- C1: the claim states that the leftover sweep removes a `.log.gz` whose
sibling `.log` still exists (keeping the `.log` for recompression) and
enqueues a `.log.gz` whose sibling is gone.  The code (`handleLeftoverChunks`
in `consumer.go`) does the exact opposite of its own comment: when the
sibling `.log` exists (`os.Stat` succeeds) it opens and **enqueues** the
`.gz`, and when the sibling is missing (`os.Stat` fails) it **removes** the
`.gz`.  This theorem evaluates the sweep at both failing states. -/
theorem c1_gz_sweep_branches_inverted :
    sweepGz [⟨"/d/app1_1000.log", 4, 1000⟩, ⟨"/d/app1_1000.log.gz", 30, 1000⟩] "/d/app1" =
      ([⟨"/d/app1_1000.log.gz", 30, 1000⟩], []) ∧
    sweepGz [⟨"/d/app1_1000.log.gz", 30, 1000⟩] "/d/app1" =
      ([], ["/d/app1_1000.log.gz"]) :=
  ⟨rfl, rfl⟩

/-- C2: the claim states a per-chunk retry deadline of `retry_limit_seconds`
**seconds** (default 1800 s).  `newS3Uploader` computes
`retryLimit := time.Minute * time.Duration(c.RetryLimitSeconds)`, i.e.
`retry_limit_seconds` **minutes**: with the default 1800 the deadline is
108000 s (30 h).  At a failure observed 2000 s in — past the claimed
budget — the code is still inside its retry wait (so a shutdown there
abandons the file), whereas under the claimed seconds budget the chunk
would already be dropped and removed. -/
theorem c2_retry_budget_in_minutes :
    retryLimitNs { retryLimitSeconds := 1800 } = 108000 * timeSecond ∧
    1800 * timeSecond < retryLimitNs { retryLimitSeconds := 1800 } ∧
    tryUpload (retryLimitNs { retryLimitSeconds := 1800 }) 0
        [⟨false, 2000 * timeSecond, true⟩] = some (.abandoned, false) ∧
    tryUpload (1800 * timeSecond) 0
        [⟨false, 2000 * timeSecond, true⟩] = some (.dropped, true) :=
  ⟨rfl, by decide, rfl, rfl⟩

/-- C3: the claim states that `compressFile` produces the `.gz` at the
sibling path `<tempDir>/<appType>_<ns>.log.gz`.  The code calls
`os.Create(fInfo.Name() + ".gz")` where `fInfo.Name()` is the stat **base**
name, so for the source `/tmp/beat_s3/app1_1000.log` the `.gz` is created at
the working-directory-relative path `app1_1000.log.gz`, not at the sibling
path — even though the mtime is copied and the source removed as claimed,
and the code's own leftover sweep pairs `X.log.gz` with `X.log` as full
sibling paths. -/
theorem c3_gz_created_in_cwd :
    compressFile ⟨"/tmp/beat_s3/app1_1000.log", 4, 1000⟩ {} =
      { ok := true, gzFile := some ⟨"app1_1000.log.gz", 22, 1000⟩,
        partialGzPath := none, srcRemoved := true } ∧
    "app1_1000.log.gz" ≠ "/tmp/beat_s3/app1_1000.log" ++ ".gz" :=
  ⟨rfl, by decide⟩

/-- C4 counterexample: an event carrying `fields.appType = "app1"` (with a
`message` but no `fields.s3` and no `source`) is rejected by
`getConsumerOptions`, although the claim says the event is accepted with
routing key `"app1"` — `fields.appType` is never consulted. -/
theorem c4_fields_appType_not_consulted :
    getValue (.map [("fields", .map [("appType", .str "app1")]), ("message", .str "m")])
        ["fields", "appType"] = some (.str "app1") ∧
    getConsumerOptions
        (.map [("fields", .map [("appType", .str "app1")]), ("message", .str "m")]) =
      .errMissing :=
  ⟨rfl, rfl⟩

/-- C4 (amended): the routing key is `fields.s3.appType` when that unpacks
to a non-empty string, else `basename(source)`; extraction fails only when
both are absent (and panics on a non-string `source` or a present non-map
`fields.s3`).  `fields.appType` plays no role.  Stated as a refinement
against `specAppTypeChain`, which is written from the amended words. -/
theorem c4_routing_two_step_chain (e : Value) :
    ExtractResult.map ConsumerOptions.appType (getConsumerOptions e) = specAppTypeChain e := by
  unfold getConsumerOptions specAppTypeChain
  cases hv : getValue e ["fields", "s3"] with
  | none => rw [map_optionsOrSource]; rfl
  | some v =>
    cases v with
    | str s => rfl
    | num n => rfl
    | map m =>
      rw [map_optionsOrSource]
      unfold unpackOptions strAt
      cases hl : lookupField m "appType" with
      | none => simp [hl]
      | some w => cases w <;> simp [hl]

/-- C5 counterexample: with `retry_limit_seconds = 1` and
`seconds_per_chunk = 7` the code's queue capacity is `60s/7s` **truncated**,
i.e. 8, while the claimed `ceil(retryLimit / uploadInterval)` is 9 (and the
claim's formula read with a seconds budget would give `ceil(1/7) = 1`) —
the capacity is neither. -/
theorem c5_queue_capacity_not_ceil :
    channelSize { retryLimitSeconds := 1, secondsPerChunk := 7 } = 8 ∧
    ceilDiv (retryLimitNs { retryLimitSeconds := 1, secondsPerChunk := 7 })
        (uploadIntervalNs { retryLimitSeconds := 1, secondsPerChunk := 7 }) = 9 ∧
    ceilDiv 1 7 = 1 :=
  ⟨rfl, rfl, rfl⟩

/-- C5 (amended): the queue capacity is the **floor** (Go's truncating
`time.Duration` division) of retryLimit / uploadInterval, which — with
`retryLimit` the computed budget of `retry_limit_seconds` minutes —
simplifies to `60 * retry_limit_seconds / seconds_per_chunk` rounded
down. -/
theorem c5_queue_capacity_floor (c : Config) :
    channelSize c = 60 * c.retryLimitSeconds / c.secondsPerChunk := by
  unfold channelSize retryLimitNs uploadIntervalNs timeMinute timeSecond
  rw [show 60 * 1000000000 * c.retryLimitSeconds
      = 1000000000 * (60 * c.retryLimitSeconds) by ring]
  exact Nat.mul_div_mul_left _ _ (by norm_num)

/-- C6 counterexample: when `io.Copy` fails, `compressFile` returns the
error and leaves the source intact, but does **not** remove the partial
`.gz` — it is still on disk, contrary to the claim that any failure before
a successful encoder close removes it. -/
theorem c6_copy_failure_leaves_partial_gz :
    (compressFile ⟨"/tmp/beat_s3/app1_2000.log", 4, 1000⟩ { copyErr := true }).ok = false ∧
    (compressFile ⟨"/tmp/beat_s3/app1_2000.log", 4, 1000⟩ { copyErr := true }).srcRemoved
      = false ∧
    (compressFile ⟨"/tmp/beat_s3/app1_2000.log", 4, 1000⟩ { copyErr := true }).partialGzPath
      = some "app1_2000.log.gz" :=
  ⟨rfl, rfl, rfl⟩

/-- C6 (amended): on every `compressFile` failure the source chunk is left
intact and no completed `.gz` is produced; seek and create failures occur
before any `.gz` exists and a close failure removes it, but a copy failure
leaves the partial `.gz` on disk. -/
theorem c6_failure_effects (src : DiskFile) (e : CompressErrs)
    (h : (compressFile src e).ok = false) :
    (compressFile src e).srcRemoved = false ∧
    (compressFile src e).gzFile = none ∧
    (compressFile src e).partialGzPath =
      (if e.seekErr = false ∧ e.createErr = false ∧ e.copyErr = true
       then some (compressTargetPath src.path) else none) := by
  obtain ⟨a, b, c, d⟩ := e
  cases a <;> cases b <;> cases c <;> cases d <;> simp_all [compressFile]

/-- C6 witness: the amended theorem applied to a concrete copy failure. -/
theorem c6_failure_effects_witness :
    (compressFile ⟨"/d/a_1.log", 2, 3⟩ { copyErr := true }).srcRemoved = false ∧
    (compressFile ⟨"/d/a_1.log", 2, 3⟩ { copyErr := true }).gzFile = none ∧
    (compressFile ⟨"/d/a_1.log", 2, 3⟩ { copyErr := true }).partialGzPath =
      (if ({ copyErr := true } : CompressErrs).seekErr = false ∧
          ({ copyErr := true } : CompressErrs).createErr = false ∧
          ({ copyErr := true } : CompressErrs).copyErr = true
       then some (compressTargetPath "/d/a_1.log") else none) :=
  c6_failure_effects ⟨"/d/a_1.log", 2, 3⟩ { copyErr := true } rfl

/-- C7 counterexample: in the recovery state left by a torn compression —
`app1_1000.log` (3 bytes) next to a zero-length `app1_1000.log.gz` — the
leftover sweep enqueues the empty `.gz` without any size check, so a
`PutObject` with a zero-length body is reachable, contrary to the claim. -/
theorem c7_empty_leftover_gz_enqueued :
    ¬ (∀ f ∈ handleLeftoverChunks
        [⟨"/d/app1_1000.log", 3, 5⟩, ⟨"/d/app1_1000.log.gz", 0, 5⟩] "/d/app1",
        1 ≤ f.size) := by
  decide

/-- C7 (amended): every file handed to the uploader queue that this process
produced — by in-process rotation (`uploadStep`) or by recompressing a
leftover `.log` in the sweep — has size at least 1 byte; the only files
enqueued without a size check are pre-existing leftover `.log.gz` files
taken as-is from disk, which may be empty. -/
theorem c7_no_empty_uploads_except_leftover_gz
    (fs : List DiskFile) (base : String) (cur : DiskFile)
    (sd se sy : Bool) (ce : CompressErrs) (f g : DiskFile)
    (hf : f ∈ handleLeftoverChunks fs base)
    (hg : (uploadStep cur sd se sy ce).enqueued = some g) :
    (1 ≤ f.size ∨ f ∈ fs) ∧ 1 ≤ g.size := by
  refine ⟨?_, uploadStep_enqueued_size cur sd se sy ce g hg⟩
  unfold handleLeftoverChunks at hf
  rcases List.mem_append.mp hf with h | h
  · right
    exact List.mem_of_mem_filter (sweepGzAux_enqueued_mem _ _ _ h)
  · left
    exact sweepLogsAux_enqueued_size _ _ h

/-- C7 witness: the amended theorem applied to the torn-compression recovery
state (for the sweep part, with the recompressed leftover chunk) and a
concrete non-empty rotation (for the in-process part). -/
theorem c7_no_empty_uploads_witness :
    (1 ≤ (⟨"app1_1000.log.gz", 21, 5⟩ : DiskFile).size ∨
      (⟨"app1_1000.log.gz", 21, 5⟩ : DiskFile) ∈
        [(⟨"/d/app1_1000.log", 3, 5⟩ : DiskFile), ⟨"/d/app1_1000.log.gz", 0, 5⟩]) ∧
    1 ≤ (⟨"x.log.gz", 22, 0⟩ : DiskFile).size :=
  c7_no_empty_uploads_except_leftover_gz
    [⟨"/d/app1_1000.log", 3, 5⟩, ⟨"/d/app1_1000.log.gz", 0, 5⟩] "/d/app1"
    ⟨"/d/x.log", 4, 0⟩ false false false {} ⟨"app1_1000.log.gz", 21, 5⟩ ⟨"x.log.gz", 22, 0⟩
    (by decide) rfl

/-- C8: if shutdown fires while an upload attempt for a queued file is in
its retry wait (a `PutObject` actively failing), `tryUpload` returns the
abandonment error without removing the file, and the uploader main loop
exits without removing it either — the in-flight file survives on disk. -/
theorem c8_shutdown_preserves_inflight (rl t0 : Nat) (as : List Attempt) (removed : Bool)
    (name : String) (rest : List (String × List Attempt))
    (h : tryUpload rl t0 as = some (.abandoned, removed)) :
    removed = false ∧ recieveAndUpload rl t0 ((name, as) :: rest) = [] := by
  refine ⟨tryUploadLoop_abandoned_not_removed _ _ _ h, ?_⟩
  rw [recieveAndUpload, h]

/-- C8 witness: a `PutObject` failure at time 0 with a 3600 s budget and
shutdown firing during the wait; the uploader abandons and the file stays. -/
theorem c8_shutdown_preserves_inflight_witness :
    false = false ∧
    recieveAndUpload (3600 * timeSecond) 0 [("chunk.gz", [⟨false, 0, true⟩])] = [] :=
  c8_shutdown_preserves_inflight (3600 * timeSecond) 0 [⟨false, 0, true⟩] false
    "chunk.gz" [] rfl

/-- C9: whenever a timestamp is obtained for an appended line and lies
strictly before `chunkStartTime` or strictly after
`chunkStartTime + chunkDuration`, the consumer's `append` performs the
rotation (`upload(false)`) before writing the line and sets
`chunkStartTime` to that timestamp. -/
theorem c9_timestamp_rotation (st : AppendState) (line : String) (ts : Int)
    (h : ts < st.chunkStartTime ∨ st.chunkStartTime + st.chunkDuration < ts) :
    (append st line (some ts)).2 = [.rotate, .writeLine line, .setMtime ts] ∧
    (append st line (some ts)).1.chunkStartTime = ts := by
  simp only [append]
  rw [if_pos h]
  exact ⟨rfl, rfl⟩

/-- C9 witness: a timestamp past the end of the 60-unit chunk window forces
rotation before the write. -/
theorem c9_timestamp_rotation_witness :
    (append ⟨0, 60⟩ "line" (some 100)).2 =
      [.rotate, .writeLine "line", .setMtime 100] ∧
    (append ⟨0, 60⟩ "line" (some 100)).1.chunkStartTime = 100 :=
  c9_timestamp_rotation ⟨0, 60⟩ "line" 100 (Or.inr (by decide))

/-- C10: the event-extraction step at the `PublishEvent` boundary is not
total: a present non-string `message` hits the unchecked `.(string)`
assertion in `getMessage`, and a non-string `source` used by the appType
fallback hits the unchecked `.(string)` assertion in `getConsumerOptions` —
both are Go panics rather than returned errors. -/
theorem c10_extraction_panics_on_nonstring :
    getMessage (.map [("message", .num 42), ("fields", .map [("appType", .str "a")])]) =
      .panicked ∧
    getConsumerOptions (.map [("message", .str "m"), ("source", .num 7)]) = .panicked :=
  ⟨rfl, rfl⟩

end S3Out
